import Mathlib

/-!
Verification development for the Sanctuary realtime voice-session orchestrator
(`Services/sanctuary_core/orchestrator.py` and `Services/sanctuary_core/tracer.py`).

The orchestrator is asyncio code: three cooperative activities (the listen loop,
the speak loop and a transient LLM generation task spawned by
`_maybe_start_llm`) plus the `handle_session` driver share one session state.
We embed it as a small-step transition system:

* `Orch` holds the per-session mutable fields of the `Orchestrator` object
  (`state`, `_speak_q` together with its `unfinished` join-counter,
  `_stop_speaking`, `_pending_prompts`, `_stt_first_partial_emitted`,
  `_active_prompt`, `_last_prompt_text`, `_awaiting_new_turn`).
* Each activity is a control-state machine whose states are the suspension
  points of the Python coroutine (every `await` of an external collaborator,
  and the genuinely blocking queue operations).  Code between two suspension
  points runs atomically, exactly as in a single-threaded asyncio loop.
* A scheduler choice (`Act`) picks which ready activity runs its next atomic
  segment; `step` is the resulting transition.  Any interleaving the asyncio
  event loop can produce with arbitrary (possibly suspending, possibly
  non-suspending) collaborators corresponds to a sequence of `Act` choices.
* Collaborators (STT, LLM, TTS, VAD) are scripted, mirroring the repo's own
  `stubs.py`: VAD verdicts and STT partials are given per inbound frame, LLM
  and TTS streams are finite scripted lists.  In asyncio, awaiting a
  collaborator coroutine runs its body up to the body's first true suspension
  without yielding to the event loop, so a call such as `tts.stop()` is
  atomic with the statements before it; only at a true suspension may the
  scheduler run another task — and it may equally well keep running the
  current one, since a collaborator is free to return without suspending.
* The tracer's monotonic clock is modelled by the position of an event in the
  session trace: `tracer.mark(name)` appends `Ev.markEv name`, and a mark's
  timestamp is its index in the trace, which is monotone exactly as
  `time.perf_counter()` is.
-/

namespace Sanctuary

/-- Session states of the orchestrator (`SessionState` in orchestrator.py). -/
inductive SessionState
  | IDLE
  | LISTENING
  | THINKING
  | SPEAKING
  | INTERRUPTED
  deriving DecidableEq, Repr

/-- A streaming STT update (`STTPartial` TypedDict in interfaces.py).  All
fields of the TypedDict are optional (`total=False`); the `text` field is an
`Option` so that an update lacking the key can be represented, which is what
`partial.get("text", "")` versus `partial["text"]` distinguish. -/
structure STTUpdate where
  text : Option String
  is_final : Bool
  maybe_sentence_boundary : Bool
  deriving DecidableEq, Repr

/-- One inbound PCM frame together with the scripted collaborator behaviour
for it: the VAD verdict `vad.is_voice(pcm)`, the updates drained from
`stt.stream_partials()` while processing the frame, and the per-frame
`vad.endpointed()` verdict. -/
structure Frame where
  isVoice : Bool
  updates : List STTUpdate
  endpointed : Bool
  deriving DecidableEq, Repr

/-- Scripted collaborators of one session (mirrors `stubs.py`): the inbound
audio frames, the results of successive `stt.get_final()` calls, the chunk
list of `llm.generate_stream(prompt)` and the audio-chunk list of
`tts.stream(text)`. -/
structure Script where
  frames : List Frame
  finals : List STTUpdate
  llmGen : String → List String
  ttsGen : String → List String

/-- The mutable per-session fields of the `Orchestrator` object.  `speakQ` is
the item list of `_speak_q` and `unfinished` its join counter (incremented by
`put`, decremented by `task_done`). -/
structure Orch where
  state : SessionState
  speakQ : List (Option String)
  unfinished : Nat
  stopSpeaking : Bool
  pending : List String
  sttFirstPartialEmitted : Bool
  activePrompt : Option String
  lastPromptText : Option String
  awaitingNewTurn : Bool
  deriving DecidableEq, Repr

/-- Observable events of a session, in chronological order.  `sttPartialEv`,
`sttFinalEv`, `assistantText` and `metricsEv` are the structured JSON events
sent on `send_json`; `audioEv` is a binary frame sent on `send_audio`;
`ttsStopEv` records a call of `tts.stop()`; `markEv` records a
`tracer.mark`; `llmEnter`/`llmExit` instrument entry into and exit from the
body of the LLM generation task `run` (the observable of spec §8 item 3). -/
inductive Ev
  | sttPartialEv (text : String) (isFin : Bool)
  | sttFinalEv (text : String)
  | assistantText (text : String)
  | audioEv (chunk : String)
  | ttsStopEv
  | llmEnter (prompt : String)
  | llmExit (prompt : String)
  | markEv (name : String)
  | metricsEv (m : List (String × Int))
  deriving DecidableEq, Repr

/-- Control states of one LLM generation task (the coroutine `run` created by
`_maybe_start_llm`):
* `created`: `asyncio.create_task(run(prompt))` has been called but the body
  has not started executing;
* `atNext`: suspended at the `async for` fetch of the next chunk of
  `llm.generate_stream`, with the remaining scripted chunks and the
  `first_chunk` flag;
* `afterSend`: suspended at the return of `send_json({"type":
  "assistant_text", ...})`, before `await self._speak_q.put(chunk)`. -/
inductive LlmCtl
  | created (prompt : String)
  | atNext (prompt : String) (chunks : List String) (first : Bool)
  | afterSend (prompt : String) (chunk : String) (chunks : List String)
  deriving DecidableEq, Repr

/-- Control states of `_speak_loop`: suspended at `self._speak_q.get()`, at
the fetch of the next chunk of `tts.stream(text)` (with remaining scripted
audio chunks), or exited after consuming the `None` sentinel. -/
inductive SpeakCtl
  | atGet
  | atNextAudio (chunks : List String)
  | doneS
  deriving DecidableEq, Repr

/-- Control states of `_listen_loop`, one per suspension point:
`atFrame` before fetching the next inbound frame; `atTtsStop` inside
`_interrupt_speaking` at `await self.tts.stop()`; `atFeed` / `atFeedSilent`
at `await self.stt.feed(...)` on the voice / silent branch; `atNextPartialU`
at the fetch of the next update of `stt.stream_partials()`; `afterEmitPartialU`
at the return of the `send_json` inside `_emit_partial`; `atGetFinal` at
`await self.stt.get_final()`; `afterSendFinal` at the return of the
`stt_final` `send_json`; `atCancelWait` in the `finally` block awaiting the
cancelled LLM task; `doneL` when the loop (task) has finished. -/
inductive ListenCtl
  | atFrame (frames : List Frame)
  | atTtsStop (f : Frame) (frames : List Frame)
  | atFeed (f : Frame) (frames : List Frame)
  | atFeedSilent (f : Frame) (frames : List Frame)
  | atNextPartialU (updates : List STTUpdate) (f : Frame) (frames : List Frame)
  | afterEmitPartialU (u : STTUpdate) (updates : List STTUpdate)
      (f : Frame) (frames : List Frame)
  | atGetFinal (f : Frame) (frames : List Frame)
  | afterSendFinal (finU : STTUpdate) (f : Frame) (frames : List Frame)
  | atCancelWait (tid : Nat)
  | doneL
  deriving DecidableEq, Repr

/-- Control states of the `handle_session` driver after spawning the two
loops: awaiting the listen task, awaiting `self._speak_q.join()`, awaiting
the speak task (after enqueueing the `None` sentinel), and returned. -/
inductive DriverCtl
  | awaitListen
  | awaitJoin
  | awaitSpeak
  | doneD
  deriving DecidableEq, Repr

/-- A full session configuration: scripted collaborators, orchestrator
object state, chronological event trace, the control state of every activity,
the set of live LLM tasks (with creation ids), the `self._llm_task`
reference, cancellation requests, the remaining scripted `get_final` results,
the speak loop's local `first_audio_emitted` flag, the driver control state,
ghost flags recording that `join()` returned and that the sentinel was
enqueued, and a pending uncaught Python exception. -/
structure Config where
  script : Script
  orch : Orch
  trace : List Ev
  listen : ListenCtl
  speak : SpeakCtl
  llms : List (Nat × LlmCtl)
  nextId : Nat
  llmTaskRef : Option Nat
  cancelRequested : List Nat
  finals : List STTUpdate
  firstAudioEmitted : Bool
  driver : DriverCtl
  joined : Bool
  sentinelPut : Bool
  error : Option String

/-- Append one observable event to the session trace. -/
def emit (c : Config) (e : Ev) : Config :=
  { c with trace := c.trace ++ [e] }

/-- Record a `tracer.mark(name)`. -/
def markT (c : Config) (name : String) : Config :=
  emit c (.markEv name)

/-- Whether an event is the mark named `name`. -/
def isMark (name : String) : Ev → Bool
  | .markEv n => n == name
  | _ => false

/-- Index in the trace of the first mark named `name` (the timestamp
`Tracer._mark_time(name)` returns, with trace positions as the monotonic
clock). -/
def firstMarkIdx : List Ev → String → Option Nat
  | [], _ => none
  | e :: es, name =>
      if isMark name e then some 0 else (firstMarkIdx es name).map (· + 1)

/-- The `diff(start, end)` helper of `Tracer.metrics`: difference of the two
first-mark timestamps, `none` if either mark is missing. -/
def metricDiff (tr : List Ev) (a b : String) : Option Int :=
  match firstMarkIdx tr a, firstMarkIdx tr b with
  | some i, some j => some ((j : Int) - (i : Int))
  | _, _ => none

/-- `Tracer.metrics()`: the five derived latency metrics, with the missing
ones omitted, in the dictionary's insertion order. -/
def metricsOf (tr : List Ev) : List (String × Int) :=
  [("stt_first_partial_ms", metricDiff tr "turn_start" "stt_first_partial"),
   ("stt_final_ms", metricDiff tr "turn_start" "stt_final"),
   ("llm_first_token_ms", metricDiff tr "turn_start" "llm_first_token"),
   ("tts_first_audio_ms", metricDiff tr "turn_start" "tts_first_audio"),
   ("turn_total_ms", metricDiff tr "turn_start" "turn_end")].filterMap
    (fun kv => kv.2.map (fun v => (kv.1, v)))

/-- Python's `str.strip()` with no argument: drop whitespace from both ends.
Defined over the character list so that it evaluates inside the kernel. -/
def pyStrip (s : String) : String :=
  String.mk (((s.toList.dropWhile Char.isWhitespace).reverse.dropWhile
    Char.isWhitespace).reverse)

/-- Python's `s.startswith(pre)`: `pre` is a prefix of `s`.  Defined over the
character lists so that it evaluates inside the kernel. -/
def pyStartsWith (s pre : String) : Bool :=
  pre.toList.isPrefixOf s.toList

/-- The truthiness test `self._active_prompt and prompt.startswith(self._active_prompt)`
of `_maybe_start_llm` (a `None` or empty active prompt is falsy). -/
def gateActive (active : Option String) (prompt : String) : Bool :=
  match active with
  | some a => (a != "") && pyStartsWith prompt a
  | none => false

/-- Replace the control state of task `tid` in the task list. -/
def updateCtl (l : List (Nat × LlmCtl)) (tid : Nat) (ctl : LlmCtl) :
    List (Nat × LlmCtl) :=
  l.map (fun t => if t.1 = tid then (tid, ctl) else t)

/-- `_maybe_start_llm(text, ...)`: trim, run the four gates, and either
return, coalesce into the pending buffer, or create the generation task.
The function contains no suspension point up to and including
`asyncio.create_task`, so it is one atomic segment. -/
def maybeStartLLM (text : String) (c : Config) : Config :=
  if pyStrip text = "" then c
  else if gateActive c.orch.activePrompt (pyStrip text) = true then c
  else if c.orch.awaitingNewTurn = false ∧
       c.orch.lastPromptText = some (pyStrip text) then c
  else if c.orch.state = .THINKING ∨ c.orch.state = .SPEAKING then
    if c.orch.pending = [] ∨ c.orch.pending.getLast? ≠ some (pyStrip text) then
      { c with orch := { c.orch with pending := [pyStrip text] } }
    else c
  else
    { c with
      llms := c.llms ++ [(c.nextId, .created (pyStrip text))]
      llmTaskRef := some c.nextId
      nextId := c.nextId + 1 }

/-- The `finally` block of the generation task `run`: clear `_active_prompt`,
clear the stop-signal if set, then either pop the pending prompt and recurse
into `_maybe_start_llm`, or return to `LISTENING` awaiting a new turn; the
task then finishes (recorded by `llmExit` and removal from the task list). -/
def segF (prompt : String) (tid : Nat) (c : Config) : Config :=
  let c1 := { c with orch := { c.orch with activePrompt := none, stopSpeaking := false } }
  let c2 :=
    match c1.orch.pending with
    | [] => { c1 with orch := { c1.orch with state := .LISTENING, awaitingNewTurn := true } }
    | p :: ps => maybeStartLLM p { c1 with orch := { c1.orch with pending := ps } }
  let c3 := emit c2 (.llmExit prompt)
  { c3 with llms := c3.llms.filter (fun t => t.1 ≠ tid) }

/-- One atomic segment of the generation task `tid`.  A cancellation
(requested by the listen loop's `finally`) makes a started body run its
`finally` block at its next suspension point; a never-started body is
discarded without running. -/
def llmStep (tid : Nat) (c : Config) : Option Config :=
  match c.llms.lookup tid with
  | none => none
  | some ctl =>
    if tid ∈ c.cancelRequested then
      match ctl with
      | .created _ => some { c with llms := c.llms.filter (fun t => t.1 ≠ tid) }
      | .atNext prompt _ _ => some (segF prompt tid c)
      | .afterSend prompt _ _ => some (segF prompt tid c)
    else
      match ctl with
      | .created prompt =>
          let o1 := { c.orch with
                      state := SessionState.THINKING
                      activePrompt := some prompt
                      lastPromptText := some prompt
                      awaitingNewTurn := false }
          let c1 := { c with orch := o1 }
          let c2 := emit c1 (.llmEnter prompt)
          some { c2 with
                 llms := updateCtl c2.llms tid
                   (.atNext prompt (c.script.llmGen prompt) true) }
      | .atNext prompt [] _ => some (segF prompt tid c)
      | .atNext prompt (ch :: rest) first =>
          if c.orch.stopSpeaking then some (segF prompt tid c)
          else
            let c1 := if first then
                        markT { c with orch := { c.orch with state := .SPEAKING } }
                          "llm_first_token"
                      else c
            let c2 := emit c1 (.assistantText ch)
            some { c2 with llms := updateCtl c2.llms tid (.afterSend prompt ch rest) }
      | .afterSend prompt ch rest =>
          let o1 := { c.orch with
                      speakQ := c.orch.speakQ ++ [some ch]
                      unfinished := c.orch.unfinished + 1 }
          some { c with
                 orch := o1
                 llms := updateCtl c.llms tid (.atNext prompt rest false) }

/-- One atomic segment of `_speak_loop`.  `get` blocks on an empty queue; a
`None` item ends the loop; the stop-signal is checked after each received
audio chunk before it is sent. -/
def speakStep (c : Config) : Option Config :=
  match c.speak with
  | .atGet =>
      match c.orch.speakQ with
      | [] => none
      | none :: q =>
          let o1 := { c.orch with
                      speakQ := q
                      unfinished := c.orch.unfinished - 1 }
          some { c with orch := o1, speak := .doneS }
      | some t :: q =>
          some { c with
                 orch := { c.orch with speakQ := q }
                 speak := .atNextAudio (c.script.ttsGen t) }
  | .atNextAudio [] =>
      some { c with
             orch := { c.orch with unfinished := c.orch.unfinished - 1 }
             speak := .atGet }
  | .atNextAudio (a :: rest) =>
      if c.orch.stopSpeaking then
        some { c with
               orch := { c.orch with unfinished := c.orch.unfinished - 1 }
               speak := .atGet }
      else
        let c1 := if c.firstAudioEmitted then c
                  else markT { c with firstAudioEmitted := true } "tts_first_audio"
        some { (emit c1 (.audioEv a)) with speak := .atNextAudio rest }
  | .doneS => none

/-- The `if self._awaiting_new_turn` block and `self.state = LISTENING`
assignment run on every voice frame before `stt.feed`. -/
def listenVoicePrep (c : Config) : Config :=
  let o1 := if c.orch.awaitingNewTurn then
              { c.orch with awaitingNewTurn := false, lastPromptText := none }
            else c.orch
  { c with orch := { o1 with state := .LISTENING } }

/-- The endpoint check run after each frame's STT processing: on
`vad.endpointed()` proceed to `stt.get_final()`, otherwise fetch the next
frame. -/
def endpointCheck (c : Config) (f : Frame) (fs : List Frame) : Config :=
  if f.endpointed then { c with listen := .atGetFinal f fs }
  else { c with listen := .atFrame fs }

/-- One atomic segment of `_listen_loop` (including `_interrupt_speaking`,
`_emit_partial` and the `finally` block). -/
def listenStep (c : Config) : Option Config :=
  match c.listen with
  | .atFrame [] =>
      match c.llmTaskRef with
      | some tid =>
          if (c.llms.lookup tid).isSome then
            some { c with
                   cancelRequested := tid :: c.cancelRequested
                   listen := .atCancelWait tid }
          else some { c with listen := .doneL }
      | none => some { c with listen := .doneL }
  | .atFrame (f :: fs) =>
      if c.orch.state = .SPEAKING ∧ f.isVoice = true then
        let c1 := { c with orch := { c.orch with stopSpeaking := true } }
        some { (emit c1 .ttsStopEv) with listen := .atTtsStop f fs }
      else if f.isVoice then
        some { (listenVoicePrep c) with listen := .atFeed f fs }
      else
        some { c with listen := .atFeedSilent f fs }
  | .atTtsStop f fs =>
      let o := { c.orch with
                 pending := []
                 activePrompt := none
                 lastPromptText := none
                 awaitingNewTurn := false
                 unfinished := c.orch.unfinished - c.orch.speakQ.length
                 speakQ := []
                 state := SessionState.INTERRUPTED }
      some { c with orch := { o with state := .LISTENING }, listen := .atFeed f fs }
  | .atFeed f fs =>
      some { c with listen := .atNextPartialU f.updates f fs }
  | .atFeedSilent f fs =>
      some (endpointCheck c f fs)
  | .atNextPartialU [] f fs =>
      some (endpointCheck c f fs)
  | .atNextPartialU (u :: us) f fs =>
      let c1 := if c.orch.sttFirstPartialEmitted then c
                else markT { c with orch := { c.orch with sttFirstPartialEmitted := true } }
                  "stt_first_partial"
      some { (emit c1 (.sttPartialEv (u.text.getD "") u.is_final)) with
             listen := .afterEmitPartialU u us f fs }
  | .afterEmitPartialU u us f fs =>
      if u.maybe_sentence_boundary then
        match u.text with
        | none => some { c with error := some "KeyError" }
        | some t => some { (maybeStartLLM t c) with listen := .atNextPartialU us f fs }
      else some { c with listen := .atNextPartialU us f fs }
  | .atGetFinal f fs =>
      let finU := c.finals.headD { text := some "", is_final := true,
                                   maybe_sentence_boundary := false }
      let c1 := { c with finals := c.finals.tail }
      -- `if not tracer._mark_time("stt_final")`: a perf_counter time is never
      -- 0.0, so the falsy test is exactly a mark-absence test
      let c2 := if firstMarkIdx c1.trace "stt_final" = none then markT c1 "stt_final" else c1
      some { (emit c2 (.sttFinalEv (finU.text.getD ""))) with
             listen := .afterSendFinal finU f fs }
  | .afterSendFinal finU f fs =>
      let c1 := maybeStartLLM (finU.text.getD "") c
      some { c1 with
             orch := { c1.orch with awaitingNewTurn := true }
             listen := .atFrame fs }
  | .atCancelWait tid =>
      if (c.llms.lookup tid).isSome then none
      else some { c with listen := .doneL }
  | .doneL => none

/-- One atomic segment of the `handle_session` driver: await the listen
task, await `join()` (then enqueue the sentinel), await the speak task (then
mark `turn_end`, compute the metrics and send them when non-empty). -/
def driverStep (c : Config) : Option Config :=
  match c.driver with
  | .awaitListen =>
      if c.listen = .doneL then some { c with driver := .awaitJoin } else none
  | .awaitJoin =>
      if c.orch.unfinished = 0 then
        let o1 := { c.orch with
                    speakQ := c.orch.speakQ ++ [none]
                    unfinished := c.orch.unfinished + 1 }
        some { c with
               orch := o1
               driver := .awaitSpeak
               joined := true
               sentinelPut := true }
      else none
  | .awaitSpeak =>
      if c.speak = .doneS then
        let c1 := markT c "turn_end"
        let m := metricsOf c1.trace
        let c2 := if m = [] then c1 else emit c1 (.metricsEv m)
        some { c2 with driver := .doneD }
      else none
  | .doneD => none

/-- A scheduler choice: which activity runs its next atomic segment. -/
inductive Act
  | listenA
  | speakA
  | llmA (tid : Nat)
  | driverA
  deriving DecidableEq, Repr

/-- One step of the session under a scheduler choice.  `none` means the
chosen activity is blocked, finished or nonexistent.  An uncaught exception
halts the session. -/
def step (c : Config) (a : Act) : Option Config :=
  if c.error.isSome then none
  else
    match a with
    | .listenA => listenStep c
    | .speakA => speakStep c
    | .llmA tid => llmStep tid c
    | .driverA => driverStep c

/-- The configuration at the start of `handle_session`, after marking
`turn_start`, resetting the per-session fields and spawning the two loops. -/
def initConfig (s : Script) : Config :=
  { script := s
    orch := { state := .LISTENING, speakQ := [], unfinished := 0,
              stopSpeaking := false, pending := [],
              sttFirstPartialEmitted := false, activePrompt := none,
              lastPromptText := none, awaitingNewTurn := true }
    trace := [.markEv "turn_start"]
    listen := .atFrame s.frames
    speak := .atGet
    llms := []
    nextId := 0
    llmTaskRef := none
    cancelRequested := []
    finals := s.finals
    firstAudioEmitted := false
    driver := .awaitListen
    joined := false
    sentinelPut := false
    error := none }

/-- Run a session under a concrete schedule, skipping blocked choices. -/
def runSched (s : Script) (acts : List Act) : Config :=
  acts.foldl (fun c a => (step c a).getD c) (initConfig s)

/-- The configurations of a session reachable under some interleaving. -/
inductive Reachable (s : Script) : Config → Prop
  | init : Reachable s (initConfig s)
  | tail {c c' : Config} {a : Act} :
      Reachable s c → step c a = some c' → Reachable s c'

/-- Whether an event is an `assistant_text` JSON event or a binary audio
frame (the two kinds of emission gated by the stop-signal). -/
def isAssistantOrAudio : Ev → Bool
  | .assistantText _ => true
  | .audioEv _ => true
  | _ => false

/-- Whether an event is a `metrics` JSON event. -/
def isMetricsEv : Ev → Bool
  | .metricsEv _ => true
  | _ => false

/-- Whether an event records entry into an LLM generation body. -/
def isLlmEnter : Ev → Bool
  | .llmEnter _ => true
  | _ => false

/-- Whether an event records exit from an LLM generation body. -/
def isLlmExit : Ev → Bool
  | .llmExit _ => true
  | _ => false

/-- One step appends events to the trace, none of them a `metrics` event,
and none of them an `assistant_text` or audio emission if the stop-signal
was set before the step. -/
def StepEvents (c c' : Config) : Prop :=
  ∃ es, c'.trace = c.trace ++ es ∧
    (∀ e ∈ es, isMetricsEv e = false) ∧
    (c.orch.stopSpeaking = true → ∀ e ∈ es, isAssistantOrAudio e = false)

/-- The session invariant: the trace starts with the `turn_start` mark,
every value inside an emitted `metrics` event is nonnegative, and once the
driver has passed `join()` (and, later, returned) the ghost flags record
that the queue was joined, the sentinel enqueued, the speak loop exited and
a `metrics` event with `turn_total_ms` sent. -/
def Inv (c : Config) : Prop :=
  c.trace.head? = some (.markEv "turn_start") ∧
  (∀ m, Ev.metricsEv m ∈ c.trace → ∀ kv ∈ m, 0 ≤ kv.2) ∧
  (c.driver = .awaitSpeak → c.joined = true ∧ c.sentinelPut = true) ∧
  (c.driver = .doneD → c.joined = true ∧ c.sentinelPut = true ∧ c.speak = .doneS ∧
    ∃ m, Ev.metricsEv m ∈ c.trace ∧ ∃ v, ("turn_total_ms", v) ∈ m)

/-! ### Concrete scenario scripts

Scripted collaborators and explicit schedules exercising the orchestrator.
Every schedule below corresponds to a real asyncio interleaving: the
scheduler may switch activities at any suspension point (a collaborator may
await internally), and may also keep running the current activity through an
`await` of a collaborator coroutine that returns without suspending — which
is exactly how the repo's own `stubs.py` collaborators behave. -/

/-- An STT update carrying `text` and a `maybe_sentence_boundary` flag. -/
def upd (t : String) (b : Bool) : STTUpdate := ⟨some t, false, b⟩

/-- Scenario for C1: a prompt is queued while a generation is in flight and
the generation then completes. -/
def c1Script : Script :=
  { frames := [⟨true, [upd "Hi there." true], false⟩,
               ⟨true, [upd "Change topic." true], false⟩]
    finals := []
    llmGen := fun p => if p = "Hi there." then ["ok"] else []
    ttsGen := fun _ => ["A"] }

/-- Schedule for C1: process frame 1 and create the generation task, start
the second frame, let the generation body run (state `THINKING`), gate the
second prompt into the pending buffer, then run the generation to
completion. -/
def c1Acts : List Act :=
  [.listenA, .listenA, .listenA, .listenA, .listenA, .listenA, .llmA 0,
   .listenA, .listenA, .listenA, .listenA, .llmA 0, .llmA 0, .llmA 0]

/-- The final configuration of the C1 scenario. -/
def c1Run : Config := runSched c1Script c1Acts

/-- Scenario for C2 and C8: two sentence-boundary submissions before any
created generation task has begun executing. -/
def c2Script : Script :=
  { frames := [⟨true, [upd "One." true, upd "Two." true], false⟩]
    finals := []
    llmGen := fun p => if p = "One." then ["a1"] else if p = "Two." then ["b1"] else []
    ttsGen := fun _ => ["A"] }

/-- Schedule for C2: the listen loop processes both partials without
yielding (its `send_json` and `stream_partials` collaborators return
without suspending, like the repo's stubs), then both created tasks start. -/
def c2Acts : List Act :=
  [.listenA, .listenA, .listenA, .listenA, .listenA, .listenA, .llmA 0, .llmA 1]

/-- The final configuration of the C2 scenario. -/
def c2Run : Config := runSched c2Script c2Acts

/-- Scenario for C8: the same text is submitted by a sentence-boundary
partial and then by the endpoint final of the same frame (no intervening
silence and no new user speech). -/
def c8Script : Script :=
  { frames := [⟨true, [upd "hola." true], true⟩]
    finals := [⟨some "hola.", true, true⟩]
    llmGen := fun p => if p = "hola." then ["r"] else []
    ttsGen := fun _ => ["A"] }

/-- Schedule for C8: the listen loop runs from the partial through the
endpoint final without yielding to the created task (all its collaborators
return without suspending), then both created tasks start. -/
def c8Acts : List Act :=
  [.listenA, .listenA, .listenA, .listenA, .listenA, .listenA, .listenA,
   .llmA 0, .llmA 1]

/-- The final configuration of the C8 scenario. -/
def c8Run : Config := runSched c8Script c8Acts

/-- Scenario for C6: a sentence-boundary STT partial with no `text` field. -/
def c6Script : Script :=
  { frames := [⟨true, [⟨none, false, true⟩], false⟩]
    finals := []
    llmGen := fun _ => []
    ttsGen := fun _ => [] }

/-- Schedule for C6: process the malformed partial. -/
def c6Acts : List Act := [.listenA, .listenA, .listenA, .listenA]

/-- The final configuration of the C6 scenario. -/
def c6Run : Config := runSched c6Script c6Acts

/-- Scenario for C3 and C9: a generation is speaking (one chunk emitted and
enqueued) when a voice frame arrives. -/
def c3Script : Script :=
  { frames := [⟨true, [upd "hola." true], false⟩, ⟨true, [], false⟩]
    finals := []
    llmGen := fun p => if p = "hola." then ["c1", "c2"] else []
    ttsGen := fun t => if t = "c1" then ["A1"] else [] }

/-- The second frame of the C3 scenario (the barge-in voice frame). -/
def c3f2 : Frame := ⟨true, [], false⟩

/-- Configuration of the C3 scenario just before the barge-in frame is
processed: state `SPEAKING`, one chunk enqueued. -/
def c3Pre : Config :=
  runSched c3Script
    [.listenA, .listenA, .listenA, .listenA, .listenA, .llmA 0, .llmA 0, .llmA 0]

/-- Configuration of the C9 scenario: the generation has emitted
`assistant_text` for its first chunk and is suspended before enqueueing it,
and the barge-in has just set the stop-signal. -/
def c9Pre : Config :=
  runSched c3Script
    [.listenA, .listenA, .listenA, .listenA, .listenA, .llmA 0, .llmA 0, .listenA]

/-- One generation-task step after `c9Pre`: the suspended `put` runs and
enqueues the chunk although the stop-signal is set. -/
def c9Post : Config :=
  runSched c3Script
    [.listenA, .listenA, .listenA, .listenA, .listenA, .llmA 0, .llmA 0, .listenA,
     .llmA 0]

/-- Scenario for C5, C4 and C10: a full session run to completion in which
the sentence-boundary partial starts the LLM before the endpoint final is
decoded. -/
def c5Script : Script :=
  { frames := [⟨true, [upd "hola." true], false⟩, ⟨false, [], true⟩]
    finals := [⟨some "", true, false⟩]
    llmGen := fun p => if p = "hola." then ["r"] else []
    ttsGen := fun t => if t = "r" then ["A"] else [] }

/-- A complete schedule for the C5 scenario, running the session to
`handle_session` return. -/
def c5Acts : List Act :=
  [.listenA, .listenA, .listenA, .listenA, .listenA,
   .llmA 0, .llmA 0, .llmA 0, .llmA 0,
   .listenA, .listenA, .listenA, .listenA, .listenA,
   .driverA, .speakA, .speakA, .speakA, .driverA, .speakA, .driverA]

/-- The final configuration of the C5 scenario (driver returned). -/
def c5Run : Config := runSched c5Script c5Acts

/-- Scenario for C7: while "ab" is actively driving the LLM, a voice frame
returns the state to `LISTENING` and a sentence-boundary partial submits
"a", a strict prefix of the active prompt. -/
def c7Script : Script :=
  { frames := [⟨true, [upd "ab" true], false⟩, ⟨true, [upd "a" true], false⟩]
    finals := []
    llmGen := fun p => if p = "ab" then ["x", "y"] else if p = "a" then ["z"] else []
    ttsGen := fun _ => [] }

/-- The second frame of the C7 scenario. -/
def c7f2 : Frame := ⟨true, [upd "a" true], false⟩

/-- Configuration of the C7 scenario at the suspension just before
`_maybe_start_llm("a")` runs: the generation for "ab" is in flight. -/
def c7Pre : Config :=
  runSched c7Script
    [.listenA, .listenA, .listenA, .listenA, .listenA, .llmA 0, .listenA,
     .listenA, .listenA]

/-- Two more steps after `c7Pre`: `_maybe_start_llm("a")` creates a second
generation task and its body starts. -/
def c7Post : Config :=
  runSched c7Script
    [.listenA, .listenA, .listenA, .listenA, .listenA, .llmA 0, .listenA,
     .listenA, .listenA, .listenA, .llmA 1]

/-! ### Projection lemmas for the atomic helpers -/

@[simp]
theorem emit_trace (c : Config) (e : Ev) : (emit c e).trace = c.trace ++ [e] := rfl

@[simp]
theorem emit_orch (c : Config) (e : Ev) : (emit c e).orch = c.orch := rfl

@[simp]
theorem emit_driver (c : Config) (e : Ev) : (emit c e).driver = c.driver := rfl

@[simp]
theorem emit_joined (c : Config) (e : Ev) : (emit c e).joined = c.joined := rfl

@[simp]
theorem emit_sentinelPut (c : Config) (e : Ev) : (emit c e).sentinelPut = c.sentinelPut := rfl

@[simp]
theorem emit_speak (c : Config) (e : Ev) : (emit c e).speak = c.speak := rfl

@[simp]
theorem emit_llms (c : Config) (e : Ev) : (emit c e).llms = c.llms := rfl

@[simp]
theorem emit_error (c : Config) (e : Ev) : (emit c e).error = c.error := rfl

@[simp]
theorem emit_listen (c : Config) (e : Ev) : (emit c e).listen = c.listen := rfl

@[simp]
theorem markT_eq (c : Config) (n : String) : markT c n = emit c (.markEv n) := rfl

@[simp]
theorem maybeStartLLM_trace (t : String) (c : Config) :
    (maybeStartLLM t c).trace = c.trace := by
  unfold maybeStartLLM
  repeat' split
  all_goals rfl

@[simp]
theorem maybeStartLLM_driver (t : String) (c : Config) :
    (maybeStartLLM t c).driver = c.driver := by
  unfold maybeStartLLM
  repeat' split
  all_goals rfl

@[simp]
theorem maybeStartLLM_joined (t : String) (c : Config) :
    (maybeStartLLM t c).joined = c.joined := by
  unfold maybeStartLLM
  repeat' split
  all_goals rfl

@[simp]
theorem maybeStartLLM_sentinelPut (t : String) (c : Config) :
    (maybeStartLLM t c).sentinelPut = c.sentinelPut := by
  unfold maybeStartLLM
  repeat' split
  all_goals rfl

@[simp]
theorem maybeStartLLM_speak (t : String) (c : Config) :
    (maybeStartLLM t c).speak = c.speak := by
  unfold maybeStartLLM
  repeat' split
  all_goals rfl

@[simp]
theorem listenVoicePrep_trace (c : Config) : (listenVoicePrep c).trace = c.trace := rfl

@[simp]
theorem listenVoicePrep_driver (c : Config) : (listenVoicePrep c).driver = c.driver := rfl

@[simp]
theorem listenVoicePrep_joined (c : Config) : (listenVoicePrep c).joined = c.joined := rfl

@[simp]
theorem listenVoicePrep_sentinelPut (c : Config) :
    (listenVoicePrep c).sentinelPut = c.sentinelPut := rfl

@[simp]
theorem listenVoicePrep_speak (c : Config) : (listenVoicePrep c).speak = c.speak := rfl

@[simp]
theorem endpointCheck_trace (c : Config) (f : Frame) (fs : List Frame) :
    (endpointCheck c f fs).trace = c.trace := by
  unfold endpointCheck
  split <;> rfl

@[simp]
theorem endpointCheck_driver (c : Config) (f : Frame) (fs : List Frame) :
    (endpointCheck c f fs).driver = c.driver := by
  unfold endpointCheck
  split <;> rfl

@[simp]
theorem endpointCheck_joined (c : Config) (f : Frame) (fs : List Frame) :
    (endpointCheck c f fs).joined = c.joined := by
  unfold endpointCheck
  split <;> rfl

@[simp]
theorem endpointCheck_sentinelPut (c : Config) (f : Frame) (fs : List Frame) :
    (endpointCheck c f fs).sentinelPut = c.sentinelPut := by
  unfold endpointCheck
  split <;> rfl

@[simp]
theorem endpointCheck_speak (c : Config) (f : Frame) (fs : List Frame) :
    (endpointCheck c f fs).speak = c.speak := by
  unfold endpointCheck
  split <;> rfl

theorem segF_trace (p : String) (tid : Nat) (c : Config) :
    (segF p tid c).trace = c.trace ++ [.llmExit p] := by
  unfold segF
  cases hp : c.orch.pending <;> simp [hp]

theorem segF_driver (p : String) (tid : Nat) (c : Config) :
    (segF p tid c).driver = c.driver := by
  unfold segF
  cases hp : c.orch.pending <;> simp [hp]

theorem segF_joined (p : String) (tid : Nat) (c : Config) :
    (segF p tid c).joined = c.joined := by
  unfold segF
  cases hp : c.orch.pending <;> simp [hp]

theorem segF_sentinelPut (p : String) (tid : Nat) (c : Config) :
    (segF p tid c).sentinelPut = c.sentinelPut := by
  unfold segF
  cases hp : c.orch.pending <;> simp [hp]

theorem segF_speak (p : String) (tid : Nat) (c : Config) :
    (segF p tid c).speak = c.speak := by
  unfold segF
  cases hp : c.orch.pending <;> simp [hp]

/-! ### Frame lemmas: what one atomic segment of each activity can do -/

theorem stepEvents_nil {c c' : Config} (h : c'.trace = c.trace) : StepEvents c c' :=
  ⟨[], by simp [h], by simp, by simp⟩

theorem stepEvents_one {c c' : Config} (e : Ev) (h : c'.trace = c.trace ++ [e])
    (hm : isMetricsEv e = false)
    (ha : c.orch.stopSpeaking = true → isAssistantOrAudio e = false) :
    StepEvents c c' :=
  ⟨[e], by simp [h], by simp [hm], fun hs => by simp [ha hs]⟩

theorem stepEvents_two {c c' : Config} (e1 e2 : Ev)
    (h : c'.trace = c.trace ++ [e1, e2])
    (hm1 : isMetricsEv e1 = false) (hm2 : isMetricsEv e2 = false)
    (ha1 : c.orch.stopSpeaking = true → isAssistantOrAudio e1 = false)
    (ha2 : c.orch.stopSpeaking = true → isAssistantOrAudio e2 = false) :
    StepEvents c c' :=
  ⟨[e1, e2], by simp [h], by simp [hm1, hm2],
   fun hs => by simp [ha1 hs, ha2 hs]⟩

/-- Everything one speak-loop segment can do: it appends no `metrics` event,
emits no audio while the stop-signal is set, touches no driver state, and
never leaves the `doneS` state. -/
theorem speak_events {c c' : Config} (hs : speakStep c = some c') :
    StepEvents c c' ∧ c'.driver = c.driver ∧ c'.joined = c.joined ∧
    c'.sentinelPut = c.sentinelPut ∧ (c.speak = .doneS → c'.speak = .doneS) := by
  cases hsp : c.speak with
  | atGet =>
      simp only [speakStep, hsp] at hs
      cases hq : c.orch.speakQ with
      | nil => rw [hq] at hs; exact absurd hs (by simp)
      | cons it q =>
          rw [hq] at hs
          cases it with
          | none =>
              simp only [Option.some.injEq] at hs
              subst hs
              exact ⟨stepEvents_nil rfl, rfl, rfl, rfl, fun _ => rfl⟩
          | some t =>
              simp only [Option.some.injEq] at hs
              subst hs
              exact ⟨stepEvents_nil rfl, rfl, rfl, rfl,
                     fun hd => by simp [hsp] at hd⟩
  | atNextAudio chunks =>
      cases chunks with
      | nil =>
          simp only [speakStep, hsp, Option.some.injEq] at hs
          subst hs
          exact ⟨stepEvents_nil rfl, rfl, rfl, rfl, fun hd => by simp [hsp] at hd⟩
      | cons a rest =>
          simp only [speakStep, hsp] at hs
          split at hs
          · simp only [Option.some.injEq] at hs
            subst hs
            exact ⟨stepEvents_nil rfl, rfl, rfl, rfl, fun hd => by simp [hsp] at hd⟩
          · rename_i hstop
            split at hs
            · simp only [Option.some.injEq] at hs
              subst hs
              exact ⟨stepEvents_one (Ev.audioEv a) (by simp) rfl
                       (fun h => absurd h hstop),
                     rfl, rfl, rfl, fun hd => by simp [hsp] at hd⟩
            · simp only [Option.some.injEq] at hs
              subst hs
              exact ⟨stepEvents_two (Ev.markEv "tts_first_audio") (Ev.audioEv a)
                       (by simp) rfl rfl
                       (fun h => absurd h hstop) (fun h => absurd h hstop),
                     rfl, rfl, rfl, fun hd => by simp [hsp] at hd⟩
  | doneS =>
      simp only [speakStep, hsp] at hs
      exact absurd hs (by simp)

/-- Everything one LLM generation-task segment can do: it appends no
`metrics` event, emits no `assistant_text` while the stop-signal is set,
and touches no driver state and not the speak loop's control state. -/
theorem llm_events {tid : Nat} {c c' : Config} (hs : llmStep tid c = some c') :
    StepEvents c c' ∧ c'.driver = c.driver ∧ c'.joined = c.joined ∧
    c'.sentinelPut = c.sentinelPut ∧ c'.speak = c.speak := by
  cases hlk : c.llms.lookup tid with
  | none =>
      simp only [llmStep, hlk] at hs
      exact absurd hs (by simp)
  | some ctl =>
      cases ctl with
      | created p =>
          simp only [llmStep, hlk] at hs
          split at hs
          · simp only [Option.some.injEq] at hs
            subst hs
            exact ⟨stepEvents_nil rfl, rfl, rfl, rfl, rfl⟩
          · simp only [Option.some.injEq] at hs
            subst hs
            exact ⟨stepEvents_one (Ev.llmEnter p) (by simp) rfl (fun _ => rfl),
                   rfl, rfl, rfl, rfl⟩
      | atNext p chunks first =>
          cases chunks with
          | nil =>
              simp only [llmStep, hlk] at hs
              split at hs <;>
                (simp only [Option.some.injEq] at hs; subst hs;
                 exact ⟨stepEvents_one (Ev.llmExit p) (segF_trace p tid c) rfl
                          (fun _ => rfl),
                        segF_driver p tid c, segF_joined p tid c,
                        segF_sentinelPut p tid c, segF_speak p tid c⟩)
          | cons ch rest =>
              simp only [llmStep, hlk] at hs
              split at hs
              · simp only [Option.some.injEq] at hs
                subst hs
                exact ⟨stepEvents_one (Ev.llmExit p) (segF_trace p tid c) rfl
                         (fun _ => rfl),
                       segF_driver p tid c, segF_joined p tid c,
                       segF_sentinelPut p tid c, segF_speak p tid c⟩
              · split at hs
                · simp only [Option.some.injEq] at hs
                  subst hs
                  exact ⟨stepEvents_one (Ev.llmExit p) (segF_trace p tid c) rfl
                           (fun _ => rfl),
                         segF_driver p tid c, segF_joined p tid c,
                         segF_sentinelPut p tid c, segF_speak p tid c⟩
                · rename_i hstop
                  split at hs
                  · simp only [Option.some.injEq] at hs
                    subst hs
                    exact ⟨stepEvents_two (Ev.markEv "llm_first_token")
                             (Ev.assistantText ch) (by simp) rfl rfl
                             (fun h => absurd h hstop) (fun h => absurd h hstop),
                           rfl, rfl, rfl, rfl⟩
                  · simp only [Option.some.injEq] at hs
                    subst hs
                    exact ⟨stepEvents_one (Ev.assistantText ch) (by simp) rfl
                             (fun h => absurd h hstop),
                           rfl, rfl, rfl, rfl⟩
      | afterSend p ch rest =>
          simp only [llmStep, hlk] at hs
          split at hs
          · simp only [Option.some.injEq] at hs
            subst hs
            exact ⟨stepEvents_one (Ev.llmExit p) (segF_trace p tid c) rfl
                     (fun _ => rfl),
                   segF_driver p tid c, segF_joined p tid c,
                   segF_sentinelPut p tid c, segF_speak p tid c⟩
          · simp only [Option.some.injEq] at hs
            subst hs
            exact ⟨stepEvents_nil rfl, rfl, rfl, rfl, rfl⟩

/-- Everything one listen-loop segment can do: it appends no `metrics`
event and never an `assistant_text` or audio emission, and touches no
driver state and not the speak loop's control state. -/
theorem listen_events {c c' : Config} (hs : listenStep c = some c') :
    StepEvents c c' ∧ c'.driver = c.driver ∧ c'.joined = c.joined ∧
    c'.sentinelPut = c.sentinelPut ∧ c'.speak = c.speak := by
  cases hl : c.listen with
  | atFrame fr =>
      cases fr with
      | nil =>
          cases href : c.llmTaskRef with
          | none =>
              simp only [listenStep, hl, href, Option.some.injEq] at hs
              subst hs
              exact ⟨stepEvents_nil rfl, rfl, rfl, rfl, rfl⟩
          | some tid =>
              simp only [listenStep, hl, href] at hs
              split at hs <;>
                (simp only [Option.some.injEq] at hs; subst hs;
                 exact ⟨stepEvents_nil rfl, rfl, rfl, rfl, rfl⟩)
      | cons f fs =>
          simp only [listenStep, hl] at hs
          split at hs
          · simp only [Option.some.injEq] at hs
            subst hs
            exact ⟨stepEvents_one Ev.ttsStopEv (by simp) rfl (fun _ => rfl),
                   rfl, rfl, rfl, rfl⟩
          · split at hs <;>
              (simp only [Option.some.injEq] at hs; subst hs;
               exact ⟨stepEvents_nil rfl, rfl, rfl, rfl, rfl⟩)
  | atTtsStop f fs =>
      simp only [listenStep, hl, Option.some.injEq] at hs
      subst hs
      exact ⟨stepEvents_nil rfl, rfl, rfl, rfl, rfl⟩
  | atFeed f fs =>
      simp only [listenStep, hl, Option.some.injEq] at hs
      subst hs
      exact ⟨stepEvents_nil rfl, rfl, rfl, rfl, rfl⟩
  | atFeedSilent f fs =>
      simp only [listenStep, hl, Option.some.injEq] at hs
      subst hs
      exact ⟨stepEvents_nil (endpointCheck_trace c f fs),
             endpointCheck_driver c f fs, endpointCheck_joined c f fs,
             endpointCheck_sentinelPut c f fs, endpointCheck_speak c f fs⟩
  | atNextPartialU us f fs =>
      cases us with
      | nil =>
          simp only [listenStep, hl, Option.some.injEq] at hs
          subst hs
          exact ⟨stepEvents_nil (endpointCheck_trace c f fs),
                 endpointCheck_driver c f fs, endpointCheck_joined c f fs,
                 endpointCheck_sentinelPut c f fs, endpointCheck_speak c f fs⟩
      | cons u us' =>
          simp only [listenStep, hl] at hs
          split at hs
          · simp only [Option.some.injEq] at hs
            subst hs
            exact ⟨stepEvents_one (Ev.sttPartialEv (u.text.getD "") u.is_final)
                     (by simp) rfl (fun _ => rfl),
                   rfl, rfl, rfl, rfl⟩
          · simp only [Option.some.injEq] at hs
            subst hs
            exact ⟨stepEvents_two (Ev.markEv "stt_first_partial")
                     (Ev.sttPartialEv (u.text.getD "") u.is_final)
                     (by simp) rfl rfl (fun _ => rfl) (fun _ => rfl),
                   rfl, rfl, rfl, rfl⟩
  | afterEmitPartialU u us f fs =>
      simp only [listenStep, hl] at hs
      split at hs
      · cases hut : u.text with
        | none =>
            rw [hut] at hs
            simp only [Option.some.injEq] at hs
            subst hs
            exact ⟨stepEvents_nil rfl, rfl, rfl, rfl, rfl⟩
        | some t =>
            rw [hut] at hs
            simp only [Option.some.injEq] at hs
            subst hs
            exact ⟨stepEvents_nil (by simp), by simp, by simp, by simp, by simp⟩
      · simp only [Option.some.injEq] at hs
        subst hs
        exact ⟨stepEvents_nil rfl, rfl, rfl, rfl, rfl⟩
  | atGetFinal f fs =>
      simp only [listenStep, hl] at hs
      split at hs
      · simp only [Option.some.injEq] at hs
        subst hs
        exact ⟨stepEvents_two (Ev.markEv "stt_final")
                 (Ev.sttFinalEv ((c.finals.headD
                   { text := some "", is_final := true,
                     maybe_sentence_boundary := false }).text.getD ""))
                 (by simp) rfl rfl (fun _ => rfl) (fun _ => rfl),
               rfl, rfl, rfl, rfl⟩
      · simp only [Option.some.injEq] at hs
        subst hs
        exact ⟨stepEvents_one
                 (Ev.sttFinalEv ((c.finals.headD
                   { text := some "", is_final := true,
                     maybe_sentence_boundary := false }).text.getD ""))
                 (by simp) rfl (fun _ => rfl),
               rfl, rfl, rfl, rfl⟩
  | afterSendFinal finU f fs =>
      simp only [listenStep, hl, Option.some.injEq] at hs
      subst hs
      exact ⟨stepEvents_nil (by simp), by simp, by simp, by simp, by simp⟩
  | atCancelWait tid =>
      simp only [listenStep, hl] at hs
      split at hs
      · exact absurd hs (by simp)
      · simp only [Option.some.injEq] at hs
        subst hs
        exact ⟨stepEvents_nil rfl, rfl, rfl, rfl, rfl⟩
  | doneL =>
      simp only [listenStep, hl] at hs
      exact absurd hs (by simp)

/-! ### Tracer lemmas -/

theorem firstMarkIdx_head {tr : List Ev} {n : String}
    (h : tr.head? = some (.markEv n)) : firstMarkIdx tr n = some 0 := by
  cases tr with
  | nil => simp at h
  | cons e es =>
      simp only [List.head?_cons, Option.some.injEq] at h
      subst h
      simp [firstMarkIdx, isMark]

theorem firstMarkIdx_isSome {tr : List Ev} {n : String}
    (h : Ev.markEv n ∈ tr) : (firstMarkIdx tr n).isSome := by
  induction tr with
  | nil => simp at h
  | cons e es ih =>
      by_cases hm : isMark n e = true
      · simp [firstMarkIdx, hm]
      · have he : e ≠ Ev.markEv n := by
          intro hk
          subst hk
          simp [isMark] at hm
        have hmem : Ev.markEv n ∈ es := by
          cases List.mem_cons.mp h with
          | inl hx => exact absurd hx.symm he
          | inr hx => exact hx
        have := ih hmem
        simp only [firstMarkIdx, hm, if_false]
        cases hfi : firstMarkIdx es n with
        | none => rw [hfi] at this; simp at this
        | some j => simp [hfi]

theorem metricDiff_nonneg {tr : List Ev} {b : String} {v : Int}
    (h : tr.head? = some (.markEv "turn_start"))
    (hv : metricDiff tr "turn_start" b = some v) : 0 ≤ v := by
  unfold metricDiff at hv
  rw [firstMarkIdx_head h] at hv
  cases hj : firstMarkIdx tr b with
  | none => rw [hj] at hv; simp at hv
  | some j =>
      rw [hj] at hv
      simp only [Option.some.injEq] at hv
      omega

/-- Every metric `Tracer.metrics` derives is nonnegative when the trace
starts with the `turn_start` mark (timestamps are monotone). -/
theorem metricsOf_nonneg {tr : List Ev}
    (h : tr.head? = some (.markEv "turn_start")) :
    ∀ kv ∈ metricsOf tr, 0 ≤ kv.2 := by
  intro kv hkv
  simp only [metricsOf, List.mem_filterMap] at hkv
  obtain ⟨a, ha, hfa⟩ := hkv
  simp only [List.mem_cons, List.mem_singleton] at ha
  have hval : ∃ b, a.2 = metricDiff tr "turn_start" b := by
    rcases ha with h1 | h1 | h1 | h1 | h1 | h1
    · exact ⟨"stt_first_partial", by rw [h1]⟩
    · exact ⟨"stt_final", by rw [h1]⟩
    · exact ⟨"llm_first_token", by rw [h1]⟩
    · exact ⟨"tts_first_audio", by rw [h1]⟩
    · exact ⟨"turn_end", by rw [h1]⟩
    · cases h1
  obtain ⟨b, hb⟩ := hval
  rw [hb] at hfa
  cases hd : metricDiff tr "turn_start" b with
  | none => rw [hd] at hfa; simp at hfa
  | some v =>
      rw [hd] at hfa
      simp only [Option.map_some', Option.some.injEq] at hfa
      have := metricDiff_nonneg h hd
      rw [← hfa]
      exact this

/-- When the `turn_start` mark heads the trace and a `turn_end` mark is
present, `Tracer.metrics` contains `turn_total_ms`. -/
theorem metricsOf_turn_total {tr : List Ev}
    (h : tr.head? = some (.markEv "turn_start"))
    (he : Ev.markEv "turn_end" ∈ tr) :
    ∃ v, ("turn_total_ms", v) ∈ metricsOf tr := by
  have h0 := firstMarkIdx_head h
  have h1 := firstMarkIdx_isSome he
  cases hj : firstMarkIdx tr "turn_end" with
  | none => rw [hj] at h1; simp at h1
  | some j =>
      refine ⟨(j : Int) - 0, ?_⟩
      simp only [metricsOf, List.mem_filterMap]
      refine ⟨("turn_total_ms", metricDiff tr "turn_start" "turn_end"), by simp, ?_⟩
      simp [metricDiff, h0, hj]

theorem head?_append_left {α : Type} {l l' : List α} {x : α}
    (h : l.head? = some x) : (l ++ l').head? = some x := by
  cases l with
  | nil => simp at h
  | cons e es => simpa using h

/-! ### The session invariant and its preservation -/

theorem inv_of_frame {c c' : Config} (h : Inv c)
    (hev : StepEvents c c')
    (hdr : c'.driver = c.driver) (hj : c'.joined = c.joined)
    (hsp : c'.sentinelPut = c.sentinelPut)
    (hsk : c.speak = .doneS → c'.speak = .doneS) : Inv c' := by
  obtain ⟨hhead, hmet, hws, hdd⟩ := h
  obtain ⟨es, htr, hnm, _⟩ := hev
  refine ⟨?_, ?_, ?_, ?_⟩
  · rw [htr]; exact head?_append_left hhead
  · intro m hm kv hkv
    rw [htr] at hm
    cases List.mem_append.mp hm with
    | inl hx => exact hmet m hx kv hkv
    | inr hx => exact absurd (hnm _ hx) (by simp [isMetricsEv])
  · intro hd
    rw [hdr] at hd
    exact ⟨hj ▸ (hws hd).1, hsp ▸ (hws hd).2⟩
  · intro hd
    rw [hdr] at hd
    obtain ⟨h1, h2, h3, m, hm, v, hv⟩ := hdd hd
    refine ⟨hj ▸ h1, hsp ▸ h2, hsk h3, m, ?_, v, hv⟩
    rw [htr]
    exact List.mem_append_left es hm

theorem inv_init (s : Script) : Inv (initConfig s) := by
  refine ⟨rfl, ?_, ?_, ?_⟩
  · intro m hm
    simp [initConfig] at hm
  · intro hd; simp [initConfig] at hd
  · intro hd; simp [initConfig] at hd

theorem inv_step {c c' : Config} {a : Act} (h : Inv c) (hs : step c a = some c') :
    Inv c' := by
  unfold step at hs
  split at hs
  · exact absurd hs (by simp)
  · cases a with
    | listenA =>
        obtain ⟨hev, hdr, hj, hsp, hsk⟩ := listen_events hs
        exact inv_of_frame h hev hdr hj hsp (fun hd => hsk ▸ hd)
    | speakA =>
        obtain ⟨hev, hdr, hj, hsp, hsk⟩ := speak_events hs
        exact inv_of_frame h hev hdr hj hsp hsk
    | llmA tid =>
        obtain ⟨hev, hdr, hj, hsp, hsk⟩ := llm_events hs
        exact inv_of_frame h hev hdr hj hsp (fun hd => hsk ▸ hd)
    | driverA =>
        obtain ⟨hhead, hmet, hws, hdd⟩ := h
        cases hd : c.driver with
        | awaitListen =>
            simp only [driverStep, hd] at hs
            split at hs
            · simp only [Option.some.injEq] at hs
              subst hs
              exact ⟨hhead, hmet, fun hx => absurd hx (by simp),
                     fun hx => absurd hx (by simp)⟩
            · exact absurd hs (by simp)
        | awaitJoin =>
            simp only [driverStep, hd] at hs
            split at hs
            · simp only [Option.some.injEq] at hs
              subst hs
              exact ⟨hhead, hmet, fun _ => ⟨rfl, rfl⟩,
                     fun hx => absurd hx (by simp)⟩
            · exact absurd hs (by simp)
        | awaitSpeak =>
            simp only [driverStep, hd] at hs
            split at hs
            · rename_i hdone
              have hhead1 : (markT c "turn_end").trace.head? =
                  some (.markEv "turn_start") := by
                simp only [markT_eq, emit_trace]
                exact head?_append_left hhead
              have hmem : Ev.markEv "turn_end" ∈ (markT c "turn_end").trace := by
                simp [markT_eq]
              obtain ⟨v, hv⟩ := metricsOf_turn_total hhead1 hmem
              split at hs
              · rename_i hnil
                rw [hnil] at hv
                simp at hv
              · simp only [Option.some.injEq] at hs
                subst hs
                refine ⟨?_, ?_, ?_, ?_⟩
                · simp only [emit_trace, markT_eq]
                  exact head?_append_left (head?_append_left hhead)
                · intro m hm kv hkv
                  simp only [emit_trace, markT_eq] at hm
                  rw [List.append_assoc] at hm
                  cases List.mem_append.mp hm with
                  | inl hx => exact hmet m hx kv hkv
                  | inr hx =>
                      simp only [List.cons_append, List.nil_append,
                        List.mem_cons, List.mem_singleton] at hx
                      cases hx with
                      | inl hx => cases hx
                      | inr hx =>
                          cases hx with
                          | inl hx =>
                              cases hx
                              exact metricsOf_nonneg hhead1 kv hkv
                          | inr hx => cases hx
                · intro hx; simp at hx
                · intro _
                  refine ⟨(hws hd).1, (hws hd).2, hdone, _, ?_, v, hv⟩
                  simp [markT_eq]
            · exact absurd hs (by simp)
        | doneD =>
            simp only [driverStep, hd] at hs
            exact absurd hs (by simp)

theorem inv_reachable {s : Script} {c : Config} (h : Reachable s c) : Inv c := by
  induction h with
  | init => exact inv_init s
  | tail hr hs ih => exact inv_step ih hs

theorem reachable_foldl (s : Script) (acts : List Act) (c : Config)
    (h : Reachable s c) :
    Reachable s (acts.foldl (fun c a => (step c a).getD c) c) := by
  induction acts generalizing c with
  | nil => exact h
  | cons a as ih =>
      simp only [List.foldl_cons]
      apply ih
      cases hs : step c a with
      | none => simpa [hs] using h
      | some c' => simpa [hs] using Reachable.tail h hs

theorem reachable_runSched (s : Script) (acts : List Act) :
    Reachable s (runSched s acts) :=
  reachable_foldl s acts _ Reachable.init

/-- One driver segment appends only marks and `metrics` events, never an
`assistant_text` or audio emission. -/
theorem driver_no_emission {c c' : Config} (hs : driverStep c = some c') :
    ∃ es, c'.trace = c.trace ++ es ∧
      ∀ e ∈ es, isAssistantOrAudio e = false := by
  cases hd : c.driver with
  | awaitListen =>
      simp only [driverStep, hd] at hs
      split at hs
      · simp only [Option.some.injEq] at hs
        subst hs
        exact ⟨[], by simp, by simp⟩
      · exact absurd hs (by simp)
  | awaitJoin =>
      simp only [driverStep, hd] at hs
      split at hs
      · simp only [Option.some.injEq] at hs
        subst hs
        exact ⟨[], by simp, by simp⟩
      · exact absurd hs (by simp)
  | awaitSpeak =>
      simp only [driverStep, hd] at hs
      split at hs
      · split at hs
        · simp only [Option.some.injEq] at hs
          subst hs
          exact ⟨[.markEv "turn_end"], by simp, by simp [isAssistantOrAudio]⟩
        · simp only [Option.some.injEq] at hs
          subst hs
          refine ⟨[.markEv "turn_end",
                   .metricsEv (metricsOf (markT c "turn_end").trace)], ?_, ?_⟩
          · simp
          · simp [isAssistantOrAudio]
      · exact absurd hs (by simp)
  | doneD =>
      simp only [driverStep, hd] at hs
      exact absurd hs (by simp)

theorem filter_append_none {p : Ev → Bool} {tr es : List Ev}
    (h : ∀ e ∈ es, p e = false) : (tr ++ es).filter p = tr.filter p := by
  rw [List.filter_append]
  have hnil : es.filter p = [] := by
    rw [List.filter_eq_nil_iff]
    intro a ha
    simp [h a ha]
  rw [hnil, List.append_nil]

/-! ### The claims -/

/-- Claim C1 (code bug, evaluated at the failing input): in the C1 scenario
the LLM generation for "Hi there." completes (its `llmExit` is in the trace)
while the pending buffer holds "Change topic.", yet after the completion
path has run no generation for "Change topic." was ever started: the
`finally` block of `run` pops the pending prompt and recurses into
`_maybe_start_llm`, but `self.state` is still `SPEAKING`, so gate 4 merely
re-queues the prompt; the session is left `SPEAKING` with no live LLM task,
the pending prompt queued forever.  This refutes the claim that on
completion with a non-empty pending buffer the pending prompt is dequeued
and a new generation is started. -/
theorem C1_pending_never_started :
    c1Run.orch.pending = ["Change topic."] ∧
    c1Run.llms = [] ∧
    c1Run.orch.state = .SPEAKING ∧
    Ev.llmExit "Hi there." ∈ c1Run.trace ∧
    Ev.llmEnter "Change topic." ∉ c1Run.trace := by decide

/-- Claim C2 (code bug, evaluated at the failing input): in the C2 scenario
the listen loop submits two sentence-boundary prompts in one frame before
either created generation task has begun executing (the gating state is
only set inside the task body, after `asyncio.create_task`), so both tasks
pass the gates, and after both bodies start the trace shows two entered and
zero exited generation bodies: `enter_count − exit_count = 2`, refuting the
at-most-one-live-generation invariant. -/
theorem C2_two_generations_live :
    (c2Run.trace.filter isLlmEnter).length = 2 ∧
    (c2Run.trace.filter isLlmExit).length = 0 ∧
    c2Run.llms.length = 2 := by decide

/-- Claim C3: when the listen loop observes a voice frame while the session
state is `SPEAKING`, the barge-in trigger step sets the stop-signal and
synchronously calls `tts.stop()` (appending `ttsStopEv`, hence before every
later event, in particular before any later `assistant_text`), and the
continuation step clears the pending-prompts buffer, the active prompt and
the last-prompt text, drains the speech queue acknowledging every
queued-but-unstarted chunk (`unfinished` drops by the number of drained
items), and leaves the speak loop's control state untouched (the in-flight
TTS consumer is not cancelled). -/
theorem C3_barge_in (c : Config) (f : Frame) (fs : List Frame)
    (hl : c.listen = .atFrame (f :: fs)) (hst : c.orch.state = .SPEAKING)
    (hv : f.isVoice = true) (he : c.error = none) :
    (step c .listenA).isSome ∧
    ∀ c1, step c .listenA = some c1 →
      c1.orch.stopSpeaking = true ∧
      c1.trace = c.trace ++ [.ttsStopEv] ∧
      c1.speak = c.speak ∧
      c1.listen = .atTtsStop f fs ∧
      (step c1 .listenA).isSome ∧
      ∀ c2, step c1 .listenA = some c2 →
        c2.orch.pending = [] ∧
        c2.orch.activePrompt = none ∧
        c2.orch.lastPromptText = none ∧
        c2.orch.speakQ = [] ∧
        c2.orch.unfinished = c.orch.unfinished - c.orch.speakQ.length ∧
        c2.orch.stopSpeaking = true ∧
        c2.speak = c.speak ∧
        c2.trace = c.trace ++ [.ttsStopEv] := by
  constructor
  · simp [step, he, listenStep, hl, hst, hv]
  · intro c1 h1
    simp only [step, he, Option.isSome_none, Bool.false_eq_true, if_false,
      listenStep, hl, hst, hv, and_self, if_true] at h1
    simp only [Option.some.injEq] at h1
    subst h1
    refine ⟨rfl, by simp, rfl, rfl, ?_, ?_⟩
    · simp [step, he, listenStep]
    · intro c2 h2
      simp only [step, emit_error, Option.isSome_none, Bool.false_eq_true,
        if_false, listenStep, emit_listen] at h2
      simp only [Option.some.injEq] at h2
      subst h2
      exact ⟨rfl, rfl, rfl, rfl, rfl, rfl, rfl, by simp⟩

/-- Witness for C3: the barge-in theorem applied to the concrete `c3Pre`
configuration (state `SPEAKING`, one chunk queued, voice frame next). -/
theorem C3_barge_in_witness :
    ((step c3Pre Act.listenA).getD c3Pre).orch.stopSpeaking = true ∧
    ((step c3Pre Act.listenA).getD c3Pre).trace =
      c3Pre.trace ++ [Ev.ttsStopEv] := by
  have h := (C3_barge_in c3Pre c3f2 [] (by decide) (by decide) (by decide)
      (by decide)).2 ((step c3Pre Act.listenA).getD c3Pre) (by rfl)
  exact ⟨h.1, h.2.1⟩

/-- Claim C4: whenever `handle_session` has returned (driver `doneD`), the
speech queue was joined (fully consumed and acknowledged), the termination
sentinel was enqueued, and the speak loop has exited. -/
theorem C4_session_teardown {s : Script} {c : Config} (h : Reachable s c)
    (hd : c.driver = .doneD) :
    c.joined = true ∧ c.sentinelPut = true ∧ c.speak = .doneS := by
  obtain ⟨-, -, -, hdd⟩ := inv_reachable h
  obtain ⟨h1, h2, h3, -⟩ := hdd hd
  exact ⟨h1, h2, h3⟩

/-- Witness for C4: the completed C5-scenario session. -/
theorem C4_session_teardown_witness :
    c5Run.joined = true ∧ c5Run.sentinelPut = true ∧ c5Run.speak = .doneS :=
  C4_session_teardown (reachable_runSched c5Script c5Acts) (by decide)

/-- Counterexample for C5: the completed C5-scenario session emits a
`metrics` event in which all five metrics are present and
`stt_final_ms = 7 > 4 = llm_first_token_ms` (the sentence-boundary partial
started the LLM before the endpoint final was decoded), refuting the claimed
chain `stt_final_ms ≤ llm_first_token_ms`. -/
theorem C5_chain_counterexample :
    Ev.metricsEv [("stt_first_partial_ms", 1), ("stt_final_ms", 7),
      ("llm_first_token_ms", 4), ("tts_first_audio_ms", 9),
      ("turn_total_ms", 11)] ∈ c5Run.trace ∧
    ¬ ((7 : Int) ≤ 4) := by decide

/-- Claim C5 (amended): in every reachable configuration, every value inside
an emitted `metrics` event is nonnegative; the monotone chain between the
intermediate metrics does not hold in general. -/
theorem C5_metrics_nonneg {s : Script} {c : Config} (h : Reachable s c)
    (m : List (String × Int)) (hm : Ev.metricsEv m ∈ c.trace) :
    ∀ kv ∈ m, 0 ≤ kv.2 :=
  (inv_reachable h).2.1 m hm

/-- Witness for C5: the nonnegativity theorem applied to the metrics event
of the completed C5-scenario session at the `stt_final_ms` entry. -/
theorem C5_metrics_nonneg_witness : (0 : Int) ≤ 7 :=
  C5_metrics_nonneg (reachable_runSched c5Script c5Acts)
    [("stt_first_partial_ms", 1), ("stt_final_ms", 7),
     ("llm_first_token_ms", 4), ("tts_first_audio_ms", 9),
     ("turn_total_ms", 11)]
    (by decide) ("stt_final_ms", 7) (by decide)

/-- Claim C6 (code bug, evaluated at the failing input): an STT partial
lacking a `text` field is emitted as `stt_partial` with empty text, but
because it asserts `maybe_sentence_boundary` the listen loop then evaluates
`partial["text"]` (orchestrator.py line 113) and raises `KeyError`,
refuting the claim that such a partial does not raise. -/
theorem C6_missing_text_raises :
    c6Run.error = some "KeyError" ∧
    Ev.sttPartialEv "" false ∈ c6Run.trace := by decide

/-- Counterexample for C7: in the C7 scenario the prompt "ab" is actively
driving the LLM (its task is live and unexited), a voice frame has returned
the session state to `LISTENING`, and the sentence-boundary text "a" — a
strict prefix of "ab" — passes every gate of `_maybe_start_llm` and starts
a new generation (its `llmEnter` appears). -/
theorem C7_strict_prefix_counterexample :
    c7Pre.orch.activePrompt = some "ab" ∧
    ("a" : String) ≠ "ab" ∧
    pyStartsWith "ab" "a" = true ∧
    c7Pre.orch.state = .LISTENING ∧
    (c7Post.llms.lookup 0).isSome = true ∧
    Ev.llmExit "ab" ∉ c7Post.trace ∧
    Ev.llmEnter "a" ∈ c7Post.trace ∧
    Ev.llmEnter "a" ∉ c7Pre.trace := by decide

/-- Claim C7 (amended): `_maybe_start_llm` starts no new generation when
the trimmed text begins with the (non-empty) active prompt, and starts none
for any text — in particular for a strict prefix of the active prompt —
while the session state is `THINKING` or `SPEAKING`; only after a voice
frame has returned the state to `LISTENING` can a strict-prefix text start
a new generation. -/
theorem C7_prefix_gating (c : Config) (t : String)
    (h : gateActive c.orch.activePrompt (pyStrip t) = true ∨
         c.orch.state = .THINKING ∨ c.orch.state = .SPEAKING) :
    (maybeStartLLM t c).llms = c.llms := by
  unfold maybeStartLLM
  split
  · rfl
  · split
    · rfl
    · split
      · rfl
      · split
        · split
          · rfl
          · rfl
        · rcases h with hx | hx
          · exact absurd hx (by assumption)
          · exact absurd hx (by assumption)

/-- Witness for C7: the gating theorem applied at the concrete `c7Pre`
configuration with a text extending the active prompt "ab". -/
theorem C7_prefix_gating_witness :
    (maybeStartLLM "abc" c7Pre).llms = c7Pre.llms :=
  C7_prefix_gating c7Pre "abc" (Or.inl (by decide))

/-- Claim C8 (code bug, evaluated at the failing input): in the C8 scenario
the same text "hola." is submitted twice within one turn (sentence-boundary
partial, then endpoint final) with no intervening silence; the dedup gate
compares against `_last_prompt_text`, which is only assigned inside the
task body, so with collaborators that return without suspending (like the
repo's own stubs) neither assignment has happened at the second call and
two generations are started for the same text, refuting exactly-one. -/
theorem C8_duplicate_generation :
    c8Run.trace.count (Ev.llmEnter "hola.") = 2 ∧
    (c8Run.trace.filter isLlmExit).length = 0 := by decide

/-- Counterexample for C9: with the generation suspended between emitting
`assistant_text` for chunk "c1" and enqueueing it, a barge-in sets the
stop-signal; the resumed segment still enqueues "c1" into the speech queue
although the stop-signal is set and stays set, refuting the claim that no
further chunks are enqueued between stop-set and stop-clear. -/
theorem C9_enqueue_after_stop :
    c9Pre.orch.stopSpeaking = true ∧
    c9Pre.orch.speakQ = [] ∧
    (step c9Pre (Act.llmA 0)).map (fun c => c.orch.stopSpeaking) = some true ∧
    (step c9Pre (Act.llmA 0)).map (fun c => c.orch.speakQ) =
      some [some "c1"] := by decide

/-- Claim C9 (amended): from any configuration in which the stop-signal is
set, no step of any activity emits a further `assistant_text` event or a
further binary audio frame (both chunk loops check the stop-signal before
each emission); a chunk whose `assistant_text` was emitted before the stop
may however still be enqueued to the speech queue. -/
theorem C9_no_emission_while_stopped {c c' : Config} (a : Act)
    (hstop : c.orch.stopSpeaking = true) (hs : step c a = some c') :
    c'.trace.filter isAssistantOrAudio = c.trace.filter isAssistantOrAudio := by
  unfold step at hs
  split at hs
  · exact absurd hs (by simp)
  · cases a with
    | listenA =>
        obtain ⟨⟨es, htr, -, hna⟩, -, -, -, -⟩ := listen_events hs
        rw [htr]
        exact filter_append_none (hna hstop)
    | speakA =>
        obtain ⟨⟨es, htr, -, hna⟩, -, -, -, -⟩ := speak_events hs
        rw [htr]
        exact filter_append_none (hna hstop)
    | llmA tid =>
        obtain ⟨⟨es, htr, -, hna⟩, -, -, -, -⟩ := llm_events hs
        rw [htr]
        exact filter_append_none (hna hstop)
    | driverA =>
        obtain ⟨es, htr, hna⟩ := driver_no_emission hs
        rw [htr]
        exact filter_append_none hna

/-- Witness for C9: the no-emission theorem applied at the concrete `c9Pre`
configuration (stop-signal set) and the generation-task step. -/
theorem C9_no_emission_while_stopped_witness :
    ((step c9Pre (Act.llmA 0)).getD c9Pre).trace.filter isAssistantOrAudio =
      c9Pre.trace.filter isAssistantOrAudio :=
  C9_no_emission_while_stopped (Act.llmA 0) (by decide) (by rfl)

/-- Claim C10: whenever `handle_session` has returned (driver `doneD`), a
`metrics` event was emitted containing `turn_total_ms` with a nonnegative
value — `turn_start` is marked on entry and `turn_end` on exit, so the
metrics dictionary is never empty. -/
theorem C10_metrics_emitted {s : Script} {c : Config} (h : Reachable s c)
    (hd : c.driver = .doneD) :
    ∃ m, Ev.metricsEv m ∈ c.trace ∧ ∃ v, ("turn_total_ms", v) ∈ m ∧ 0 ≤ v := by
  obtain ⟨-, hmet, -, hdd⟩ := inv_reachable h
  obtain ⟨-, -, -, m, hm, v, hv⟩ := hdd hd
  exact ⟨m, hm, v, hv, hmet m hm ("turn_total_ms", v) hv⟩

/-- Witness for C10: the completed C5-scenario session. -/
theorem C10_metrics_emitted_witness :
    ∃ m, Ev.metricsEv m ∈ c5Run.trace ∧
      ∃ v, ("turn_total_ms", v) ∈ m ∧ 0 ≤ v :=
  C10_metrics_emitted (reachable_runSched c5Script c5Acts) (by decide)

end Sanctuary
